import Mathlib

/-!
Verification of the Bayesian A/B tester script (`scripts/bayesian_a_b_tester.py`)
against its natural-language specification.

The script is a thin CLI wrapper around a probabilistic model: it parses
command-line arguments (log level, success/total counts for two groups,
optional prior intervals), builds a model with two uniform priors `p_a`, `p_b`,
a deterministic difference `delta = p_b - p_a`, two binomial likelihoods with
the observed counts, seeds the sampler with a MAP estimate, and draws
10000 production samples after 10000 tuning iterations.

The embedding below follows the source: CLI values are Python values
(strings, ints, lists, None); parameter extraction in `__main__` is plain
field plumbing with defaulting and no validation; the density declared by the
model (`pm.Uniform` + `pm.Binomial`) is embedded as an extended-real-valued
log posterior over `ℝ`; the external sampler's retention contract and the
trace semantics of `pm.Deterministic` are modelled from the spec where noted.
-/

/-! ## Python values and CLI arguments -/

/-- Python runtime values that flow through the script: strings (all argparse
values arrive as strings since no `type=` is given), integers, lists, and the
result of indexing.  Indexing a Python string yields a one-character string. -/
inductive PyVal where
  | int : ℤ → PyVal
  | str : String → PyVal
  | list : List PyVal → PyVal


/-- Python subscript `v[i]` for the values the script indexes: a list yields
its `i`-th element, a string yields the `i`-th character as a one-character
string; out-of-range or unsupported indexing is `none` (Python raises). -/
def pyIndex : PyVal → ℕ → Option PyVal
  | .list xs, i => xs.get? i
  | .str s, i => (s.data.get? i).map fun c => .str (String.mk [c])
  | .int _, _ => none

/-- The argparse result (`parse_args`): `loglvel` has default `"INFO"` and is
restricted by `choices` to four strings; all other arguments default to `None`
and arrive as raw strings when supplied (the parser performs no conversion). -/
structure CLIArgs where
  loglvel : String
  n_a : Option String
  n_b : Option String
  N_a : Option String
  N_b : Option String
  p_a : Option String
  p_b : Option String


/-- The four values accepted by `--loglevel` (`choices=[...]`, line 45). -/
def loglevelChoices : List String := ["INFO", "DEBUG", "WARNING", "ERROR"]

/-- argparse validation of `--loglevel`: absent means the default `"INFO"`;
a supplied value outside `choices` is rejected by the parser (error exit). -/
def parse_loglevel (arg : Option String) : Except String String :=
  match arg with
  | none => .ok "INFO"
  | some s => if s ∈ loglevelChoices then .ok s else .error "invalid choice"

/-- Numeric values of the Python `logging` module levels. -/
def logging_DEBUG : ℕ := 10

/-- Numeric value of `logging.INFO`. -/
def logging_INFO : ℕ := 20

/-- Numeric value of `logging.WARNING`. -/
def logging_WARNING : ℕ := 30

/-- Numeric value of `logging.ERROR`. -/
def logging_ERROR : ℕ := 40

/-- The log-level dispatch chain of `__main__` (lines 114-123): four `elif`
tests against the literal strings, with a final `else` that falls back to
`INFO`.  The boolean records whether the fallback branch was taken. -/
def dispatch_loglevel (s : String) : ℕ × Bool :=
  if s = "INFO" then (logging_INFO, false)
  else if s = "DEBUG" then (logging_DEBUG, false)
  else if s = "WARNING" then (logging_WARNING, false)
  else if s = "ERROR" then (logging_ERROR, false)
  else (logging_INFO, true)

/-- The level named by a `--loglevel` string, for the four admissible values. -/
def named_level (s : String) : ℕ :=
  if s = "INFO" then logging_INFO
  else if s = "DEBUG" then logging_DEBUG
  else if s = "WARNING" then logging_WARNING
  else if s = "ERROR" then logging_ERROR
  else 0

/-! ## Parameter extraction in `__main__` (lines 99-112)

The script copies the four count arguments unchanged (no `int()` conversion),
and for each prior argument either keeps the raw CLI string or substitutes the
Python list `[0, 1]` when the argument is absent.  No validation of any kind
is performed, so the extraction phase cannot fail; the `Except` frame with the
spec's `InvalidInput` error is present to state the error-handling claims. -/

/-- The spec's input-validation error (`InvalidInput`).  The source never
defines or raises it; it appears here only so that the extraction phase can be
stated as a fallible computation. -/
inductive InvalidInput where
  | successesExceedTrials : InvalidInput
  | nonpositiveTrials : InvalidInput
  | malformedPrior : InvalidInput


/-- The parameters reaching model construction: the four counts as raw
optional strings and the two prior values as Python values. -/
structure MainParams where
  n_a : Option String
  n_b : Option String
  N_a : Option String
  N_b : Option String
  priors_a : PyVal
  priors_b : PyVal


/-- Resolution of one prior argument (lines 104-112): the raw string when
supplied, the Python list `[0, 1]` otherwise. -/
def resolve_prior : Option String → PyVal
  | some s => .str s
  | none => .list [.int 0, .int 1]

/-- Parameter extraction of `__main__` (lines 99-112): plain assignment and
prior defaulting, with no validation of counts or priors. -/
def extract_params (a : CLIArgs) : Except InvalidInput MainParams :=
  .ok { n_a := a.n_a, n_b := a.n_b, N_a := a.N_a, N_b := a.N_b,
        priors_a := resolve_prior a.p_a, priors_b := resolve_prior a.p_b }

/-- Whether extraction raises any error (it never does: the source has no
validation between argument parsing and model construction). -/
def extract_raises (a : CLIArgs) : Bool :=
  match extract_params a with
  | .error _ => true
  | .ok _ => false

/-! ## Model construction (lines 129-140)

`pm.Uniform('p_a', lower=priors_a[0], upper=priors_a[1])` receives the
subscripted prior values; `pm.Binomial` receives the raw count strings. -/

/-- The arguments the script passes when declaring the model: the four
Uniform bounds obtained by Python subscripting of the prior values, and the
observed/total counts forwarded untouched. -/
structure ModelDecl where
  lower_a : Option PyVal
  upper_a : Option PyVal
  lower_b : Option PyVal
  upper_b : Option PyVal
  obs_n_a : Option String
  obs_n_b : Option String
  tot_N_a : Option String
  tot_N_b : Option String


/-- Model declaration (lines 132-140): the Uniform bounds are `priors_a[0]`,
`priors_a[1]`, `priors_b[0]`, `priors_b[1]`; the Binomial arguments are the
count strings as extracted. -/
def build_model (p : MainParams) : ModelDecl :=
  { lower_a := pyIndex p.priors_a 0
    upper_a := pyIndex p.priors_a 1
    lower_b := pyIndex p.priors_b 0
    upper_b := pyIndex p.priors_b 1
    obs_n_a := p.n_a
    obs_n_b := p.n_b
    tot_N_a := p.N_a
    tot_N_b := p.N_b }

/-- The whole pre-sampling phase: extraction followed by model construction.
Its only possible errors would come from extraction, which never fails. -/
def pre_sampling (a : CLIArgs) : Except InvalidInput ModelDecl :=
  (extract_params a).map build_model

/-! ## The declared density (lines 129-140)

The model declares two bounded-uniform priors, a deterministic difference and
two binomial likelihoods.  Its unnormalized log posterior over the parameter
pair `(ra, rb)` is the sum of the uniform log densities and the binomial
log probability masses, valued in the extended reals (`⊥` = minus infinity
for an infeasible point or a vanishing likelihood). -/

/-- Observed data for one group: `successes` out of `trials`. -/
structure Observation where
  successes : ℕ
  trials : ℕ

/-- A bounded-uniform prior interval `[lower, upper]`. -/
structure PriorSpec where
  lower : ℝ
  upper : ℝ

/-- Extended-real logarithm: `⊥` on nonpositive arguments (`log 0 = -∞`),
the real logarithm on positive ones.  This is the log that turns a vanishing
probability mass into minus infinity rather than an error. -/
noncomputable def elog (x : ℝ) : EReal :=
  if x ≤ 0 then ⊥ else ((Real.log x : ℝ) : EReal)

/-- Log density of `pm.Uniform(lower, upper)` at `x`: `-log (upper - lower)`
inside the closed interval, `-∞` outside. -/
noncomputable def uniform_logp (ps : PriorSpec) (x : ℝ) : EReal :=
  if ps.lower ≤ x ∧ x ≤ ps.upper then elog (1 / (ps.upper - ps.lower)) else ⊥

/-- Probability mass of `Binomial(N, p)` at `n`:
`C(N, n) * p ^ n * (1 - p) ^ (N - n)` (with the convention `0 ^ 0 = 1`,
matching the library's `logpow` handling of the `p ∈ {0, 1}` corners). -/
def binom_pmf (N n : ℕ) (p : ℝ) : ℝ :=
  (N.choose n : ℝ) * p ^ n * (1 - p) ^ (N - n)

/-- Log likelihood contributed by `pm.Binomial(n=N, observed=n)` at rate `p`. -/
noncomputable def binom_logp (N n : ℕ) (p : ℝ) : EReal :=
  elog (binom_pmf N n p)

/-- The unnormalized log posterior of the declared model `ab_test_model` at a
candidate parameter pair `(ra, rb)`: uniform priors for both rates plus the
two binomial likelihoods with the observed data. -/
noncomputable def log_posterior (oa ob : Observation) (pa pb : PriorSpec)
    (ra rb : ℝ) : EReal :=
  uniform_logp pa ra + uniform_logp pb rb +
    binom_logp oa.trials oa.successes ra +
    binom_logp ob.trials ob.successes rb

/-- The finite value the spec asserts for a feasible point: the sum of the
uniform-prior log densities and, per group, the expression
`successes * log rate + (trials - successes) * log (1 - rate)`.  This follows
the spec's words, to be compared with `log_posterior` above. -/
noncomputable def spec_finite_value (oa ob : Observation) (pa pb : PriorSpec)
    (ra rb : ℝ) : ℝ :=
  Real.log (1 / (pa.upper - pa.lower)) + Real.log (1 / (pb.upper - pb.lower)) +
    ((oa.successes : ℝ) * Real.log ra +
      ((oa.trials : ℝ) - (oa.successes : ℝ)) * Real.log (1 - ra)) +
    ((ob.successes : ℝ) * Real.log rb +
      ((ob.trials : ℝ) - (ob.successes : ℝ)) * Real.log (1 - rb))

/-! ## Sampler contract and trace (lines 142-152)

The sampler itself lives in the external library; the script configures it
with `pm.sample(10000, step=step, start=start, tune=10000)`.  Its retention
contract and the trace semantics of `pm.Deterministic` are modelled from the
spec. -/

/-- Modelled from the spec: the sequence of sampler states, one per
iteration, produced by repeatedly applying the (otherwise unconstrained)
transition function from the start point.  The concrete transition kernel
(NUTS) is external to the repository. -/
def chainIterates {α : Type} (step : α → α) : α → ℕ → List α
  | _, 0 => []
  | start, n + 1 => start :: chainIterates step (step start) n

/-- Modelled from the spec: `pm.sample(draws, tune=tune)` runs
`tune + draws` iterations from the start point and retains only the
production suffix, discarding the `tune` warm-up iterations. -/
def pm_sample {α : Type} (step : α → α) (start : α) (tune draws : ℕ) : List α :=
  (chainIterates step start (tune + draws)).drop tune

/-- The retained samples of `p_a` (`burned_trace["p_a"]`): first component of
each retained parameter pair. -/
def rate_A_chain (chain : List (ℝ × ℝ)) : List ℝ :=
  chain.map Prod.fst

/-- The retained samples of `p_b` (`burned_trace["p_b"]`): second component of
each retained parameter pair. -/
def rate_B_chain (chain : List (ℝ × ℝ)) : List ℝ :=
  chain.map Prod.snd

/-- Modelled from the spec: `delta = pm.Deterministic('delta', p_b - p_a)`
recorded per retained sample, i.e. `burned_trace["delta"]` is the pointwise
difference of the rate chains. -/
def delta_series (chain : List (ℝ × ℝ)) : List ℝ :=
  chain.map fun s => s.2 - s.1

/-! ## Initializer call site (line 142)

`start = pm.find_MAP()` is called with no surrounding error handling: an
exception escaping the optimizer propagates and aborts the run before
`pm.sample` executes. -/

/-- The spec's initializer failure signal (`OptimizationFailure`).  The source
defines no such handling; the type frames the call-site model. -/
inductive OptimizationFailure where
  | optimizationFailure : OptimizationFailure

/-- Clipping to an interval, used by the spec's naive-frequency seed. -/
noncomputable def clip (x lo hi : ℝ) : ℝ := max lo (min x hi)

/-- The spec's fallback seed for one group: the naive frequency
`successes / trials` clipped to the prior interval. -/
noncomputable def naive_seed (o : Observation) (ps : PriorSpec) : ℝ :=
  clip ((o.successes : ℝ) / (o.trials : ℝ)) ps.lower ps.upper

/-- The sampling phase of `__main__` (lines 142-144) as a function of the
initializer's outcome: the result of `pm.find_MAP()` is used directly as the
start point with no error handling, so an initializer failure propagates and
aborts the run, while a successful seed is passed straight to
`pm.sample(10000, tune=10000)`. -/
def run_sampling (mapResult : Except OptimizationFailure (ℝ × ℝ))
    (step : ℝ × ℝ → ℝ × ℝ) : Except OptimizationFailure (List (ℝ × ℝ)) :=
  match mapResult with
  | .error e => .error e
  | .ok start => .ok (pm_sample step start 10000 10000)

/-! ## Claims about the trace and the sampler configuration -/

/-- Claim C1: the delta series has exactly the length of the rate chains, and
at every retained index it equals `rate_B_chain[i] - rate_A_chain[i]` exactly
(the pointwise difference recorded by `pm.Deterministic('delta', p_b - p_a)`). -/
theorem c1_delta_series_exact (chain : List (ℝ × ℝ)) :
    (delta_series chain).length = (rate_A_chain chain).length ∧
    (delta_series chain).length = (rate_B_chain chain).length ∧
    ∀ i, i < (delta_series chain).length →
      (delta_series chain).getD i 0 =
        (rate_B_chain chain).getD i 0 - (rate_A_chain chain).getD i 0 := by
  refine ⟨by simp [delta_series, rate_A_chain],
    by simp [delta_series, rate_B_chain], ?_⟩
  intro i hi
  simp only [delta_series, List.length_map] at hi
  have h : chain[i]? = some (chain.get ⟨i, hi⟩) := by
    simp [hi]
  simp [delta_series, rate_A_chain, rate_B_chain, List.getD_eq_getElem?_getD,
    List.getElem?_map, h]

/-- Witness for C1: the one-element chain `[(1/4, 1/2)]` at index 0. -/
theorem c1_delta_series_exact_witness :
    0 < (delta_series [((1 : ℝ)/4, (1 : ℝ)/2)]).length ∧
    (delta_series [((1 : ℝ)/4, (1 : ℝ)/2)]).getD 0 0 =
      (rate_B_chain [((1 : ℝ)/4, (1 : ℝ)/2)]).getD 0 0 -
        (rate_A_chain [((1 : ℝ)/4, (1 : ℝ)/2)]).getD 0 0 :=
  ⟨by simp [delta_series],
    (c1_delta_series_exact [((1 : ℝ)/4, (1 : ℝ)/2)]).2.2 0 (by simp [delta_series])⟩

/-- Claim C4: the retained chain after the production phase has length exactly
the configured production draw count; the warm-up iterations are discarded.
The script's configuration is `draws = 10000`, `tune = 10000`. -/
theorem c4_production_length {α : Type} (step : α → α) (start : α)
    (tune draws : ℕ) :
    (pm_sample step start tune draws).length = draws := by
  have h : ∀ (n : ℕ) (s : α), (chainIterates step s n).length = n := by
    intro n
    induction n with
    | zero => intro s; rfl
    | succ k ih => intro s; simp [chainIterates, ih]
  simp only [pm_sample, List.length_drop, h]
  omega

/-! ## Claims about input validation and error handling -/

/-- Claim C2 counterexample: with successes_A = "5" and trials_A = "0"
(successes exceed trials and trials are nonpositive), the pre-sampling phase
completes without any `InvalidInput`: the unvalidated values reach model
construction unchanged. -/
theorem c2_counterexample :
    pre_sampling ⟨"INFO", some "5", some "3", some "0", some "10", none, none⟩ =
      Except.ok ⟨some (PyVal.int 0), some (PyVal.int 1), some (PyVal.int 0),
        some (PyVal.int 1), some "5", some "3", some "0", some "10"⟩ := rfl

/-- Claim C2 amended: the script performs no input validation; for every
argument set the pre-sampling phase raises nothing (no `InvalidInput` is ever
produced) and the raw values flow into model construction. -/
theorem c2_no_validation (a : CLIArgs) (e : InvalidInput) :
    extract_raises a = false ∧ pre_sampling a ≠ Except.error e :=
  ⟨rfl, by simp [pre_sampling, extract_params, Except.map]⟩

/-- Claim C5: when a prior CLI argument is absent, the corresponding Uniform
receives exactly lower = 0 and upper = 1 (the Python list `[0, 1]`). -/
theorem c5_default_priors (a : CLIArgs) (m : ModelDecl)
    (hm : pre_sampling a = Except.ok m) :
    (a.p_a = none →
      m.lower_a = some (PyVal.int 0) ∧ m.upper_a = some (PyVal.int 1)) ∧
    (a.p_b = none →
      m.lower_b = some (PyVal.int 0) ∧ m.upper_b = some (PyVal.int 1)) := by
  have hm' : m = build_model ⟨a.n_a, a.n_b, a.N_a, a.N_b,
      resolve_prior a.p_a, resolve_prior a.p_b⟩ := by
    simpa [pre_sampling, extract_params, Except.map, eq_comm] using hm
  constructor <;> intro h <;>
    simp [hm', build_model, h, resolve_prior, pyIndex]

/-- Witness for C5: a run with both prior arguments absent gets the default
bounds 0 and 1 for both groups. -/
theorem c5_default_priors_witness :
    pre_sampling ⟨"INFO", some "5", some "7", some "100", some "100", none, none⟩ =
      Except.ok ⟨some (PyVal.int 0), some (PyVal.int 1), some (PyVal.int 0),
        some (PyVal.int 1), some "5", some "7", some "100", some "100"⟩ ∧
    (some (PyVal.int 0) = some (PyVal.int 0) ∧
      some (PyVal.int 1) = some (PyVal.int 1)) :=
  ⟨rfl, by
    have h := (c5_default_priors
      ⟨"INFO", some "5", some "7", some "100", some "100", none, none⟩
      ⟨some (PyVal.int 0), some (PyVal.int 1), some (PyVal.int 0),
        some (PyVal.int 1), some "5", some "7", some "100", some "100"⟩ rfl).1 rfl
    exact ⟨h.1 ▸ rfl, h.2 ▸ rfl⟩⟩

/-- Claim C7 counterexample: when the initializer fails, the run aborts with
the propagated failure; it does not fall back to sampling from the naive
frequency seed. -/
theorem c7_counterexample :
    run_sampling (Except.error OptimizationFailure.optimizationFailure) id =
      Except.error OptimizationFailure.optimizationFailure ∧
    run_sampling (Except.error OptimizationFailure.optimizationFailure) id ≠
      Except.ok (pm_sample id
        (naive_seed ⟨5, 10⟩ ⟨0, 1⟩, naive_seed ⟨7, 10⟩ ⟨0, 1⟩) 10000 10000) :=
  ⟨rfl, fun h => Except.noConfusion h⟩

/-- Claim C7 amended: the call site of `pm.find_MAP` has no error handling:
an initializer failure propagates unchanged and aborts the run (no
naive-seed fallback), while a successful seed is passed directly to
`pm.sample(10000, tune=10000)`. -/
theorem c7_no_fallback (e : OptimizationFailure) (start : ℝ × ℝ)
    (step : ℝ × ℝ → ℝ × ℝ) :
    run_sampling (Except.error e) step = Except.error e ∧
    run_sampling (Except.ok start) step =
      Except.ok (pm_sample step start 10000 10000) :=
  ⟨rfl, rfl⟩

/-- Claim C9: a supplied prior argument is used as the raw CLI string with no
numeric conversion; the Uniform bounds are the first and second characters of
that string (Python string subscripts, hence one-character strings). -/
theorem c9_raw_prior_strings (a : CLIArgs) (m : ModelDecl)
    (hm : pre_sampling a = Except.ok m) :
    (∀ (s : String) (c0 c1 : Char) (rest : List Char),
      a.p_a = some s → s.data = c0 :: c1 :: rest →
        m.lower_a = some (PyVal.str (String.mk [c0])) ∧
        m.upper_a = some (PyVal.str (String.mk [c1]))) ∧
    (∀ (s : String) (c0 c1 : Char) (rest : List Char),
      a.p_b = some s → s.data = c0 :: c1 :: rest →
        m.lower_b = some (PyVal.str (String.mk [c0])) ∧
        m.upper_b = some (PyVal.str (String.mk [c1]))) := by
  have hm' : m = build_model ⟨a.n_a, a.n_b, a.N_a, a.N_b,
      resolve_prior a.p_a, resolve_prior a.p_b⟩ := by
    simpa [pre_sampling, extract_params, Except.map, eq_comm] using hm
  constructor <;> intro s c0 c1 rest hp hs <;>
    simp [hm', build_model, hp, resolve_prior, pyIndex, hs]

/-- Witness for C9: the prior argument `"[0,1]"` yields the bounds
`"["` and `"0"` (one-character strings), not the numbers 0 and 1. -/
theorem c9_raw_prior_strings_witness :
    pre_sampling ⟨"INFO", some "5", some "7", some "100", some "100",
        some "[0,1]", none⟩ =
      Except.ok ⟨some (PyVal.str "["), some (PyVal.str "0"),
        some (PyVal.int 0), some (PyVal.int 1),
        some "5", some "7", some "100", some "100"⟩ ∧
    some (PyVal.str "[") = some (PyVal.str (String.mk ['['])) ∧
    some (PyVal.str "0") = some (PyVal.str (String.mk ['0'])) := by
  refine ⟨rfl, ?_, ?_⟩
  · exact ((c9_raw_prior_strings
      ⟨"INFO", some "5", some "7", some "100", some "100", some "[0,1]", none⟩
      ⟨some (PyVal.str "["), some (PyVal.str "0"), some (PyVal.int 0),
        some (PyVal.int 1), some "5", some "7", some "100", some "100"⟩
      rfl).1 "[0,1]" (Char.ofNat 91) (Char.ofNat 48) [Char.ofNat 44,
        Char.ofNat 49, Char.ofNat 93] rfl rfl).1.symm ▸ rfl
  · exact ((c9_raw_prior_strings
      ⟨"INFO", some "5", some "7", some "100", some "100", some "[0,1]", none⟩
      ⟨some (PyVal.str "["), some (PyVal.str "0"), some (PyVal.int 0),
        some (PyVal.int 1), some "5", some "7", some "100", some "100"⟩
      rfl).1 "[0,1]" (Char.ofNat 91) (Char.ofNat 48) [Char.ofNat 44,
        Char.ofNat 49, Char.ofNat 93] rfl rfl).2.symm ▸ rfl

/-- Claim C10: every argument set accepted by the parser dispatches to the
log level named by the `--loglevel` value (INFO when absent), and the
fallback `else` branch is never taken, since `choices` restricts the value to
the four admissible strings. -/
theorem c10_loglevel_dispatch (arg : Option String) (s : String)
    (h : parse_loglevel arg = Except.ok s) :
    (dispatch_loglevel s).1 = named_level s ∧
    (dispatch_loglevel s).2 = false ∧
    (arg = none → s = "INFO") := by
  match arg with
  | none =>
    have hs : s = "INFO" := by
      have h0 : ("INFO" : String) = s := by
        simpa [parse_loglevel] using h
      exact h0.symm
    subst hs
    exact ⟨rfl, rfl, fun _ => rfl⟩
  | some t =>
    have ht : t ∈ loglevelChoices ∧ s = t := by
      by_cases hmem : t ∈ loglevelChoices
      · simp only [parse_loglevel, if_pos hmem, Except.ok.injEq] at h
        exact ⟨hmem, h.symm⟩
      · simp [parse_loglevel, if_neg hmem] at h
    obtain ⟨hmem, rfl⟩ := ht
    refine ⟨?_, ?_, by simp⟩ <;>
      · simp only [loglevelChoices, List.mem_cons, List.mem_singleton,
          List.not_mem_nil, or_false] at hmem
        rcases hmem with rfl | rfl | rfl | rfl <;> rfl

/-- Witness for C10: the argument `DEBUG` is accepted and dispatches to the
`DEBUG` level (10) without taking the fallback branch. -/
theorem c10_loglevel_dispatch_witness :
    parse_loglevel (some "DEBUG") = Except.ok "DEBUG" ∧
    (dispatch_loglevel "DEBUG").1 = named_level "DEBUG" ∧
    (dispatch_loglevel "DEBUG").2 = false :=
  ⟨rfl, (c10_loglevel_dispatch (some "DEBUG") "DEBUG" rfl).1,
    (c10_loglevel_dispatch (some "DEBUG") "DEBUG" rfl).2.1⟩

/-! ## Claims about the density -/

/-- On a positive argument, `elog` is the real logarithm. -/
theorem elog_of_pos (x : ℝ) (hx : 0 < x) :
    elog x = ((Real.log x : ℝ) : EReal) := by
  rw [elog, if_neg (not_le.mpr hx)]

/-- The binomial mass is positive at an interior rate with `n ≤ N`. -/
theorem binom_pmf_pos (N n : ℕ) (p : ℝ) (hn : n ≤ N) (h0 : 0 < p)
    (h1 : p < 1) : 0 < binom_pmf N n p := by
  have hc : 0 < (N.choose n : ℝ) := by exact_mod_cast Nat.choose_pos hn
  have hp : 0 < p ^ n := pow_pos h0 n
  have hq : 0 < (1 - p) ^ (N - n) := pow_pos (by linarith) _
  exact mul_pos (mul_pos hc hp) hq

/-- At an interior rate the binomial log likelihood decomposes into the
log binomial coefficient plus `n * log p + (N - n) * log (1 - p)`. -/
theorem binom_logp_interior (N n : ℕ) (p : ℝ) (hn : n ≤ N) (h0 : 0 < p)
    (h1 : p < 1) :
    binom_logp N n p =
      ((Real.log (N.choose n : ℝ) + (n : ℝ) * Real.log p +
        ((N : ℝ) - (n : ℝ)) * Real.log (1 - p) : ℝ) : EReal) := by
  have hpos := binom_pmf_pos N n p hn h0 h1
  have hc : (N.choose n : ℝ) ≠ 0 := by
    have : 0 < (N.choose n : ℝ) := by exact_mod_cast Nat.choose_pos hn
    exact ne_of_gt this
  have hp : p ^ n ≠ 0 := ne_of_gt (pow_pos h0 n)
  have hq : (1 - p) ^ (N - n) ≠ 0 := ne_of_gt (pow_pos (by linarith) _)
  rw [binom_logp, elog_of_pos _ hpos]
  rw [EReal.coe_eq_coe_iff, binom_pmf,
    Real.log_mul (mul_ne_zero hc hp) hq, Real.log_mul hc hp,
    Real.log_pow, Real.log_pow]
  have hcast : ((N - n : ℕ) : ℝ) = (N : ℝ) - (n : ℝ) := Nat.cast_sub hn
  rw [hcast]

/-- Claim C3 counterexample at data 1/2 successes per group and default
priors: the point `(0, 1/2)` lies inside the prior box `[0,1] × [0,1]` yet
has log posterior -∞ (the likelihood vanishes at rate 0 with a success
observed), and at the interior point `(1/2, 1/2)` the log posterior differs
from the value asserted by the spec, which omits the binomial-coefficient
terms. -/
theorem c3_counterexample :
    log_posterior ⟨1, 2⟩ ⟨1, 2⟩ ⟨0, 1⟩ ⟨0, 1⟩ 0 (1/2) = ⊥ ∧
    log_posterior ⟨1, 2⟩ ⟨1, 2⟩ ⟨0, 1⟩ ⟨0, 1⟩ (1/2) (1/2) ≠
      ((spec_finite_value ⟨1, 2⟩ ⟨1, 2⟩ ⟨0, 1⟩ ⟨0, 1⟩ (1/2) (1/2) : ℝ) :
        EReal) := by
  constructor
  · norm_num [log_posterior, uniform_logp, binom_logp, binom_pmf, elog,
      EReal.add_bot, EReal.bot_add]
  · norm_num [log_posterior, uniform_logp, binom_logp, binom_pmf, elog]
    intro hEq
    rw [← EReal.coe_add, EReal.coe_eq_coe_iff] at hEq
    norm_num [spec_finite_value, Real.log_inv] at hEq

/-- Claim C3 amended: outside the prior box the log posterior is -∞.  At a
point inside the box whose rates lie strictly between 0 and 1 (a well-formed
prior with `lower < upper` and observations with `successes ≤ trials`), it is
finite, and equals the spec's asserted sum plus the binomial-coefficient
constants `log C(trials, successes)` of the two groups, which the spec's
formula omits.  At rates exactly 0 or 1 inside the box the value can be -∞
(see the counterexample), so strict interiority is required for finiteness. -/
theorem c3_log_posterior_amended (oa ob : Observation) (pa pb : PriorSpec)
    (ra rb : ℝ) :
    (¬(pa.lower ≤ ra ∧ ra ≤ pa.upper) ∨ ¬(pb.lower ≤ rb ∧ rb ≤ pb.upper) →
      log_posterior oa ob pa pb ra rb = ⊥) ∧
    (pa.lower ≤ ra → ra ≤ pa.upper → pb.lower ≤ rb → rb ≤ pb.upper →
      pa.lower < pa.upper → pb.lower < pb.upper →
      0 < ra → ra < 1 → 0 < rb → rb < 1 →
      oa.successes ≤ oa.trials → ob.successes ≤ ob.trials →
      log_posterior oa ob pa pb ra rb =
        ((spec_finite_value oa ob pa pb ra rb +
          Real.log (oa.trials.choose oa.successes : ℝ) +
          Real.log (ob.trials.choose ob.successes : ℝ) : ℝ) : EReal)) := by
  constructor
  · rintro (h | h) <;>
      simp [log_posterior, uniform_logp, h, EReal.add_bot, EReal.bot_add]
  · intro hla hua hlb hub hwa hwb h0a h1a h0b h1b hna hnb
    have hia : 0 < 1 / (pa.upper - pa.lower) := by
      have : 0 < pa.upper - pa.lower := sub_pos.mpr hwa
      positivity
    have hib : 0 < 1 / (pb.upper - pb.lower) := by
      have : 0 < pb.upper - pb.lower := sub_pos.mpr hwb
      positivity
    rw [log_posterior, uniform_logp, if_pos ⟨hla, hua⟩, uniform_logp,
      if_pos ⟨hlb, hub⟩, elog_of_pos _ hia, elog_of_pos _ hib,
      binom_logp_interior _ _ _ hna h0a h1a,
      binom_logp_interior _ _ _ hnb h0b h1b,
      ← EReal.coe_add, ← EReal.coe_add, ← EReal.coe_add,
      EReal.coe_eq_coe_iff, spec_finite_value]
    ring

/-- Witness for the amended C3 at data 1 success out of 2 trials per group,
default priors and the interior point `(1/2, 1/2)`. -/
theorem c3_log_posterior_amended_witness :
    ((0 : ℝ) ≤ 1/2 ∧ (1/2 : ℝ) ≤ 1 ∧ (0 : ℝ) < 1 ∧ (0 : ℝ) < 1/2 ∧
      (1/2 : ℝ) < 1 ∧ (1 : ℕ) ≤ 2) ∧
    log_posterior ⟨1, 2⟩ ⟨1, 2⟩ ⟨0, 1⟩ ⟨0, 1⟩ (1/2) (1/2) =
      ((spec_finite_value ⟨1, 2⟩ ⟨1, 2⟩ ⟨0, 1⟩ ⟨0, 1⟩ (1/2) (1/2) +
        Real.log ((2 : ℕ).choose 1 : ℝ) +
        Real.log ((2 : ℕ).choose 1 : ℝ) : ℝ) : EReal) :=
  ⟨by norm_num,
    (c3_log_posterior_amended ⟨1, 2⟩ ⟨1, 2⟩ ⟨0, 1⟩ ⟨0, 1⟩ (1/2) (1/2)).2
      (by norm_num) (by norm_num) (by norm_num) (by norm_num) (by norm_num)
      (by norm_num) (by norm_num) (by norm_num) (by norm_num) (by norm_num)
      (by norm_num) (by norm_num)⟩

/-- Claim C6 counterexample: with zero observed successes in group A (0 out
of 3 trials), a proposal with rate component exactly 0 has a finite log
posterior (the boundary likelihood is `0^0 * 1^3 = 1`), not -∞. -/
theorem c6_counterexample :
    log_posterior ⟨0, 3⟩ ⟨1, 2⟩ ⟨0, 1⟩ ⟨0, 1⟩ 0 (1/2) ≠ ⊥ := by
  norm_num [log_posterior, uniform_logp, binom_logp, binom_pmf, elog]

/-- At rate exactly 0, a group with at least one observed success has a
vanishing likelihood, so its binomial log term is -∞. -/
theorem binom_logp_zero_bot (N n : ℕ) (h : 0 < n) : binom_logp N n 0 = ⊥ := by
  have hz : binom_pmf N n 0 = 0 := by
    rw [binom_pmf, zero_pow (Nat.pos_iff_ne_zero.mp h)]
    ring
  rw [binom_logp, hz, elog, if_pos le_rfl]

/-- At rate exactly 1, a group with at least one observed failure has a
vanishing likelihood, so its binomial log term is -∞. -/
theorem binom_logp_one_bot (N n : ℕ) (h : n < N) : binom_logp N n 1 = ⊥ := by
  have hz : binom_pmf N n 1 = 0 := by
    rw [binom_pmf, sub_self, zero_pow (Nat.sub_ne_zero_of_lt h)]
    ring
  rw [binom_logp, hz, elog, if_pos le_rfl]

/-- With zero observed successes the boundary likelihood at rate 0 is
`C(N,0) * 0^0 * 1^N = 1`, so the binomial log term is 0, a finite value. -/
theorem binom_logp_zero_allfail (N : ℕ) : binom_logp N 0 0 = ((0 : ℝ) : EReal) := by
  have h1 : binom_pmf N 0 0 = 1 := by
    simp [binom_pmf]
  rw [binom_logp, h1, elog_of_pos 1 one_pos, Real.log_one]

/-- With zero observed failures the boundary likelihood at rate 1 is
`C(N,N) * 1^N * 0^0 = 1`, so the binomial log term is 0, a finite value. -/
theorem binom_logp_one_allpass (N : ℕ) : binom_logp N N 1 = ((0 : ℝ) : EReal) := by
  have h1 : binom_pmf N N 1 = 1 := by
    simp [binom_pmf]
  rw [binom_logp, h1, elog_of_pos 1 one_pos, Real.log_one]

/-- Claim C6 amended, for either rate component: a proposal with a component
exactly 0 (resp. exactly 1) drives the log posterior to -∞ whenever that
component's group observed at least one success (resp. at least one failure).
When the corresponding count is zero (zero successes at rate 0, zero failures
at rate 1), that group's boundary likelihood is `0^0 * 1^trials = 1`, its log
term is 0, and the log posterior stays finite whenever the remaining prior
and likelihood factors are finite.  In every case evaluation is total — the
density is a defined extended-real value handled as normal control flow,
never a raised numeric exception. -/
theorem c6_boundary_rates_amended (oa ob : Observation) (pa pb : PriorSpec)
    (ra rb : ℝ) :
    (0 < oa.successes → log_posterior oa ob pa pb 0 rb = ⊥) ∧
    (oa.successes < oa.trials → log_posterior oa ob pa pb 1 rb = ⊥) ∧
    (0 < ob.successes → log_posterior oa ob pa pb ra 0 = ⊥) ∧
    (ob.successes < ob.trials → log_posterior oa ob pa pb ra 1 = ⊥) ∧
    (oa.successes = 0 →
      binom_logp oa.trials oa.successes 0 = ((0 : ℝ) : EReal)) ∧
    (oa.successes = oa.trials →
      binom_logp oa.trials oa.successes 1 = ((0 : ℝ) : EReal)) ∧
    (ob.successes = 0 →
      binom_logp ob.trials ob.successes 0 = ((0 : ℝ) : EReal)) ∧
    (ob.successes = ob.trials →
      binom_logp ob.trials ob.successes 1 = ((0 : ℝ) : EReal)) ∧
    (oa.successes = 0 → uniform_logp pa 0 ≠ ⊥ → uniform_logp pb rb ≠ ⊥ →
      binom_logp ob.trials ob.successes rb ≠ ⊥ →
      log_posterior oa ob pa pb 0 rb ≠ ⊥) ∧
    (oa.successes = oa.trials → uniform_logp pa 1 ≠ ⊥ →
      uniform_logp pb rb ≠ ⊥ →
      binom_logp ob.trials ob.successes rb ≠ ⊥ →
      log_posterior oa ob pa pb 1 rb ≠ ⊥) ∧
    (ob.successes = 0 → uniform_logp pa ra ≠ ⊥ → uniform_logp pb 0 ≠ ⊥ →
      binom_logp oa.trials oa.successes ra ≠ ⊥ →
      log_posterior oa ob pa pb ra 0 ≠ ⊥) ∧
    (ob.successes = ob.trials → uniform_logp pa ra ≠ ⊥ →
      uniform_logp pb 1 ≠ ⊥ →
      binom_logp oa.trials oa.successes ra ≠ ⊥ →
      log_posterior oa ob pa pb ra 1 ≠ ⊥) := by
  refine ⟨?_, ?_, ?_, ?_, ?_, ?_, ?_, ?_, ?_, ?_, ?_, ?_⟩
  · intro h
    rw [log_posterior, binom_logp_zero_bot _ _ h, EReal.add_bot, EReal.bot_add]
  · intro h
    rw [log_posterior, binom_logp_one_bot _ _ h, EReal.add_bot, EReal.bot_add]
  · intro h
    rw [log_posterior, binom_logp_zero_bot _ _ h, EReal.add_bot]
  · intro h
    rw [log_posterior, binom_logp_one_bot _ _ h, EReal.add_bot]
  · intro h
    rw [h]
    exact binom_logp_zero_allfail oa.trials
  · intro h
    rw [h]
    exact binom_logp_one_allpass oa.trials
  · intro h
    rw [h]
    exact binom_logp_zero_allfail ob.trials
  · intro h
    rw [h]
    exact binom_logp_one_allpass ob.trials
  · intro h hu1 hu2 hb
    have hA : binom_logp oa.trials oa.successes 0 = ((0 : ℝ) : EReal) := by
      rw [h]
      exact binom_logp_zero_allfail oa.trials
    rw [log_posterior, hA]
    simp [EReal.add_eq_bot_iff, hu1, hu2, hb]
  · intro h hu1 hu2 hb
    have hA : binom_logp oa.trials oa.successes 1 = ((0 : ℝ) : EReal) := by
      rw [h]
      exact binom_logp_one_allpass oa.trials
    rw [log_posterior, hA]
    simp [EReal.add_eq_bot_iff, hu1, hu2, hb]
  · intro h hu1 hu2 hb
    have hB : binom_logp ob.trials ob.successes 0 = ((0 : ℝ) : EReal) := by
      rw [h]
      exact binom_logp_zero_allfail ob.trials
    rw [log_posterior, hB]
    simp [EReal.add_eq_bot_iff, hu1, hu2, hb]
  · intro h hu1 hu2 hb
    have hB : binom_logp ob.trials ob.successes 1 = ((0 : ℝ) : EReal) := by
      rw [h]
      exact binom_logp_one_allpass ob.trials
    rw [log_posterior, hB]
    simp [EReal.add_eq_bot_iff, hu1, hu2, hb]

/-- Witness for the amended C6: with 1 success out of 2 trials in each group,
rate 0 and rate 1 give -∞ for either component; with 0 successes out of 3 in
group A, the boundary likelihood term at rate 0 is 0 and the full log
posterior at `(0, 1/2)` stays finite. -/
theorem c6_boundary_rates_amended_witness :
    ((0 : ℕ) < 1 ∧ (1 : ℕ) < 2) ∧
    log_posterior ⟨1, 2⟩ ⟨1, 2⟩ ⟨0, 1⟩ ⟨0, 1⟩ 0 (1/2) = ⊥ ∧
    log_posterior ⟨1, 2⟩ ⟨1, 2⟩ ⟨0, 1⟩ ⟨0, 1⟩ 1 (1/2) = ⊥ ∧
    log_posterior ⟨1, 2⟩ ⟨1, 2⟩ ⟨0, 1⟩ ⟨0, 1⟩ (1/2) 0 = ⊥ ∧
    log_posterior ⟨1, 2⟩ ⟨1, 2⟩ ⟨0, 1⟩ ⟨0, 1⟩ (1/2) 1 = ⊥ ∧
    binom_logp 3 0 0 = ((0 : ℝ) : EReal) ∧
    log_posterior ⟨0, 3⟩ ⟨1, 2⟩ ⟨0, 1⟩ ⟨0, 1⟩ 0 (1/2) ≠ ⊥ :=
  ⟨by norm_num,
    (c6_boundary_rates_amended ⟨1, 2⟩ ⟨1, 2⟩ ⟨0, 1⟩ ⟨0, 1⟩ (1/2) (1/2)).1
      (by norm_num),
    (c6_boundary_rates_amended ⟨1, 2⟩ ⟨1, 2⟩ ⟨0, 1⟩ ⟨0, 1⟩ (1/2) (1/2)).2.1
      (by norm_num),
    (c6_boundary_rates_amended ⟨1, 2⟩ ⟨1, 2⟩ ⟨0, 1⟩ ⟨0, 1⟩ (1/2) (1/2)).2.2.1
      (by norm_num),
    (c6_boundary_rates_amended ⟨1, 2⟩ ⟨1, 2⟩ ⟨0, 1⟩ ⟨0, 1⟩ (1/2) (1/2)).2.2.2.1
      (by norm_num),
    (c6_boundary_rates_amended ⟨0, 3⟩ ⟨1, 2⟩ ⟨0, 1⟩ ⟨0, 1⟩ (1/2) (1/2)).2.2.2.2.1
      rfl,
    (c6_boundary_rates_amended ⟨0, 3⟩ ⟨1, 2⟩ ⟨0, 1⟩ ⟨0, 1⟩ (1/2) (1/2)).2.2.2.2.2.2.2.2.1
      rfl
      (by norm_num [uniform_logp, elog])
      (by norm_num [uniform_logp, elog])
      (by norm_num [binom_logp, binom_pmf, elog])⟩
